import Mathlib

/-!
Verification of the AfyaTrack backend's token service and authorization
predicate, as a shallow embedding of the TypeScript sources.

The repository holds two parallel implementations of the auth domain:
* an ORM-based one (`src/entities/RefreshToken.ts`, `src/utils/jwt.ts`,
  the TypeORM `AuthService` with `login` / `register` / `refreshToken` /
  `logout` / `cleanupExpiredTokens`), in which refresh tokens are opaque
  random hex strings and revocation sets an `is_revoked` flag; and
* a SQL-driven one (`src/services/auth.service.ts`, `src/middleware/auth.ts`,
  `src/database/schema.sql`), in which refresh tokens are signed JWTs kept in
  a `refresh_tokens` table with no revocation column (revocation deletes the
  row), swept hourly by `cleanExpiredTokens`.

Time is modelled as `Int` seconds; database tables as Lean lists, with
TypeORM `findOne` as first-match search.  The external `jsonwebtoken`
library is modelled by the `Token` type below: a signed token carries its
payload, expiry and signing secret, and verification checks the secret and
expiry exactly as the library does; every other value fails verification
as malformed.  `crypto.randomBytes` is modelled by passing the drawn bytes
as an explicit argument.
-/

namespace AfyaTrack

/-- Identity payload carried inside a signed JWT (`JwtPayload` in
`src/utils/jwt.ts`; the SQL implementation's `JWTPayload` has no
`facilityId`, modelled as `none`). -/
structure JwtPayload where
  userId : String
  email : String
  role : String
  facilityId : Option String
deriving DecidableEq, Repr

/-- A token value as produced by the two generators in the repository:
either a JWT signed with a secret (the `jsonwebtoken` library, modelled
abstractly but executably: the token carries payload, expiry and the key it
was signed with), or an opaque hex string from `crypto.randomBytes`. -/
inductive Token where
  | signed (payload : JwtPayload) (exp : Int) (secret : String)
  | randomHex (value : String)
deriving DecidableEq, Repr

/-- Errors thrown by `jwt.verify`: `TokenExpiredError` for a well-signed but
expired token, `JsonWebTokenError` for any bad signature or format (the
library throws only these two on string inputs). -/
inductive JwtLibError where
  | tokenExpired
  | malformedOrBadSignature
deriving DecidableEq, Repr

/-- Model of `jwt.verify(token, secret)` at time `now`: a token verifies
exactly when it was signed with `secret` and its expiry has not passed;
signature is checked before expiry. -/
def jwtVerify (t : Token) (secret : String) (now : Int) :
    Except JwtLibError JwtPayload :=
  match t with
  | .signed p e s =>
      if s = secret then
        if e ≤ now then .error .tokenExpired else .ok p
      else .error .malformedOrBadSignature
  | .randomHex _ => .error .malformedOrBadSignature

/-- Lower-case hex digit for a nibble, as `Buffer.toString('hex')` prints. -/
def hexDigit (n : Nat) : Char :=
  if n < 10 then Char.ofNat (48 + n) else Char.ofNat (87 + n)

/-- Hex characters of a byte list, two characters per byte. -/
def hexChars : List Nat → List Char
  | [] => []
  | b :: bs => hexDigit (b / 16) :: hexDigit (b % 16) :: hexChars bs

/-- `bytes.toString('hex')`: the hex rendering of a byte list. -/
def hexEncode (bytes : List Nat) : String :=
  String.mk (hexChars bytes)

/-- Recognizer for a lower-case hex character. -/
def isHexChar (c : Char) : Bool :=
  (48 ≤ c.toNat && c.toNat ≤ 57) || (97 ≤ c.toNat && c.toNat ≤ 102)

namespace JwtService

/-- Default access-token secret of `src/utils/jwt.ts` (`JWT_SECRET` env
fallback). -/
def ACCESS_TOKEN_SECRET : String := "your-secret-key"

/-- Access-token lifetime of the ORM implementation: `'24h'`, in seconds. -/
def accessTokenLifetime : Int := 24 * 60 * 60

/-- Refresh-token lifetime of the ORM implementation: `'7d'`, in seconds. -/
def refreshTokenLifetime : Int := 7 * 24 * 60 * 60

/-- `JwtService.generateAccessToken`: sign the payload with the access
secret, expiring `24h` from now. -/
def generateAccessToken (p : JwtPayload) (now : Int) : Token :=
  .signed p (now + accessTokenLifetime) ACCESS_TOKEN_SECRET

/-- `JwtService.generateRefreshToken`: `crypto.randomBytes(64).toString('hex')`,
with the drawn bytes passed explicitly. -/
def generateRefreshToken (bytes : List Nat) : String :=
  hexEncode bytes

/-- Token pair returned by `JwtService.generateTokenPair`. -/
structure TokenPair where
  accessToken : Token
  refreshToken : String
deriving DecidableEq, Repr

/-- `JwtService.generateTokenPair`. -/
def generateTokenPair (p : JwtPayload) (now : Int) (bytes : List Nat) : TokenPair :=
  { accessToken := generateAccessToken p now
    refreshToken := generateRefreshToken bytes }

/-- Errors surfaced by `JwtService.verifyAccessToken`.  The source has a
third defensive branch (`'Token verification failed'`) for errors that are
neither `TokenExpiredError` nor `JsonWebTokenError`; `jwt.verify` raises
only those two, so the branch is unreachable and the corresponding
constructor is never produced. -/
inductive AccessVerifyError where
  | accessTokenExpired
  | invalidAccessToken
  | verificationFailed
deriving DecidableEq, Repr

/-- `JwtService.verifyAccessToken`: verify against the access secret and map
the library's errors onto the service's taxonomy.  Pure: no storage
argument. -/
def verifyAccessToken (t : Token) (now : Int) :
    Except AccessVerifyError JwtPayload :=
  match jwtVerify t ACCESS_TOKEN_SECRET now with
  | .ok p => .ok p
  | .error .tokenExpired => .error .accessTokenExpired
  | .error .malformedOrBadSignature => .error .invalidAccessToken

end JwtService

/-- A row of the ORM `refresh_tokens` table (`src/entities/RefreshToken.ts`);
the generated `id` and `createdAt` columns play no role in any operation
modelled here and are omitted. -/
structure RefreshTokenRow where
  token : String
  userId : String
  expiresAt : Int
  isRevoked : Bool
  createdByIp : Option String
  revokedByIp : Option String
  revokedAt : Option Int
deriving DecidableEq, Repr

namespace RefreshTokenRow

/-- `RefreshToken.isActive`: not revoked and `expiresAt > new Date()`. -/
def isActive (r : RefreshTokenRow) (now : Int) : Bool :=
  !r.isRevoked && now < r.expiresAt

/-- `RefreshToken.revoke(revokedByIp?)`: set the flag and the revocation
metadata. -/
def revoke (r : RefreshTokenRow) (now : Int) (ip : Option String) : RefreshTokenRow :=
  { r with isRevoked := true, revokedAt := some now, revokedByIp := ip }

end RefreshTokenRow

/-- A row of the ORM `users` table (`src/entities/User.ts`), restricted to
the columns the auth flows read. -/
structure UserRow where
  id : String
  email : String
  password : String
  role : String
  facilityId : Option String
  isActive : Bool
deriving DecidableEq, Repr

/-- State touched by the ORM `AuthService`: the users table and the
refresh-tokens table, as lists in storage order (TypeORM `findOne` is
first-match). -/
structure OrmState where
  users : List UserRow
  refreshTokens : List RefreshTokenRow
deriving DecidableEq, Repr

/-- Errors thrown by the ORM `AuthService.refreshToken`.  `missingUserRow`
models the crash that would follow a dangling `user_id` (ruled out by the
foreign key). -/
inductive AuthError where
  | invalidOrExpiredRefreshToken
  | userDeactivated
  | missingUserRow
deriving DecidableEq, Repr

namespace PasswordService

/-- Modelled from the spec: `src/utils/password.ts` is absent from the
source snapshot (only its callers are present).  The spec's Credential
Store keeps a "hashed password" and login verifies the supplied password
against the stored hash; the bcrypt hash is modelled as an injective
tagging of the password. -/
def hashPassword (password : String) : String :=
  "bcrypt$" ++ password

/-- Modelled from the spec: `PasswordService.verifyPassword(password, hash)`
holds exactly when hashing the candidate reproduces the stored hash. -/
def verifyPassword (password hash : String) : Bool :=
  hashPassword password == hash

end PasswordService

namespace AuthService

/-- `findOne({ token, isRevoked: false })` followed by `revoke` + `save` on
the row found: returns the row as it was found together with the table with
that row replaced by its revoked version, or `none` when no unrevoked row
carries the token. -/
def revokeFirstMatching (t : String) (now : Int) (ip : Option String) :
    List RefreshTokenRow → Option (RefreshTokenRow × List RefreshTokenRow)
  | [] => none
  | r :: rs =>
      if r.token = t ∧ r.isRevoked = false then
        some (r, r.revoke now ip :: rs)
      else
        match revokeFirstMatching t now ip rs with
        | none => none
        | some (found, rs') => some (found, r :: rs')

/-- `AuthService.saveRefreshToken`: insert a fresh row for the user,
expiring `7d` from now. -/
def saveRefreshToken (rows : List RefreshTokenRow) (token userId : String)
    (ip : Option String) (now : Int) : List RefreshTokenRow :=
  rows ++ [{ token := token, userId := userId,
             expiresAt := now + JwtService.refreshTokenLifetime,
             isRevoked := false, createdByIp := ip,
             revokedByIp := none, revokedAt := none }]

/-- `AuthService.refreshToken` (rotation): look up the presented token among
unrevoked rows, reject it unless the row is active and the owning user is
active, then revoke the row, mint a new pair and insert the new refresh
row.  `bytes` is the randomness drawn by `crypto.randomBytes(64)`. -/
def rotateRefreshToken (st : OrmState) (tokenValue : String)
    (clientIp : Option String) (now : Int) (bytes : List Nat) :
    Except AuthError (OrmState × JwtService.TokenPair) :=
  match revokeFirstMatching tokenValue now clientIp st.refreshTokens with
  | none => .error .invalidOrExpiredRefreshToken
  | some (row, revokedRows) =>
      if row.isActive now = false then .error .invalidOrExpiredRefreshToken
      else
        match st.users.find? (fun u => u.id == row.userId) with
        | none => .error .missingUserRow
        | some user =>
            if user.isActive = false then .error .userDeactivated
            else
              let payload : JwtPayload :=
                { userId := user.id, email := user.email,
                  role := user.role, facilityId := user.facilityId }
              let tokens := JwtService.generateTokenPair payload now bytes
              let rows' := saveRefreshToken revokedRows tokens.refreshToken
                user.id clientIp now
              .ok ({ st with refreshTokens := rows' }, tokens)

/-- `AuthService.logout`: `findOne({ token })`; when a row is found and not
yet revoked, revoke it and save; otherwise do nothing.  Never errors. -/
def logout (t : String) (clientIp : Option String) (now : Int) :
    List RefreshTokenRow → List RefreshTokenRow
  | [] => []
  | r :: rs =>
      if r.token = t then
        if r.isRevoked then r :: rs else r.revoke now clientIp :: rs
      else r :: logout t clientIp now rs

/-- Failure of the ORM `AuthService.login` (`'Invalid email or password'`,
thrown alike for an unknown email and a wrong password). -/
inductive LoginError where
  | invalidEmailOrPassword
deriving DecidableEq, Repr

/-- `AuthService.login` of the ORM implementation, reduced to its
authentication decision: find an active user whose stored email equals the
lower-cased input and check the password; the last-login write and token
issuance do not affect which user (if any) is authenticated. -/
def login (users : List UserRow) (email password : String) :
    Except LoginError UserRow :=
  match users.find? (fun u => u.email == email.toLower && u.isActive) with
  | none => .error .invalidEmailOrPassword
  | some u =>
      if PasswordService.verifyPassword password u.password then .ok u
      else .error .invalidEmailOrPassword

/-- Failures of the ORM `AuthService.register`. -/
inductive RegisterError where
  | emailExists
  | weakPassword
  | invalidFacility
deriving DecidableEq, Repr

/-- `AuthService.register` of the ORM implementation, reduced to the users
table it writes: reject a duplicate of the lower-cased email, a weak
password (`PasswordService.validatePasswordStrength`, absent from the
snapshot, passed as the boolean `passwordOk`) or an unknown/inactive
facility, then store the new user with the lower-cased email.  `facilities`
lists `(id, isActive)` of the facility table; `newId` is the generated
primary key. -/
def register (users : List UserRow) (facilities : List (String × Bool))
    (newId email password role : String) (facilityId : Option String)
    (passwordOk : Bool) : Except RegisterError (List UserRow × UserRow) :=
  match users.find? (fun u => u.email == email.toLower) with
  | some _ => .error .emailExists
  | none =>
      if passwordOk = false then .error .weakPassword
      else
        let facilityCheck : Bool :=
          match facilityId with
          | none => true
          | some fid => facilities.any (fun f => f.1 == fid && f.2)
        if facilityCheck = false then .error .invalidFacility
        else
          let newUser : UserRow :=
            { id := newId, email := email.toLower,
              password := PasswordService.hashPassword password,
              role := role, facilityId := facilityId, isActive := true }
          .ok (users ++ [newUser], newUser)

end AuthService

/-! ### The SQL-driven implementation
(`src/services/auth.service.ts`, `src/database/schema.sql`,
`src/middleware/auth.ts`).  Its `refresh_tokens` table has columns `id`,
`user_id`, `token`, `expires_at`, `created_at` and no revocation flag:
logout, rotation and password change all revoke by deleting rows. -/

namespace Sql

/-- Default secret of the SQL implementation (`src/config/env.ts`
fallback). -/
def JWT_SECRET : String := "fallback-secret-change-in-production"

/-- `JWT_EXPIRES_IN` default `'7d'`, in seconds. -/
def accessTokenLifetime : Int := 7 * 24 * 60 * 60

/-- `JWT_REFRESH_EXPIRES_IN` default `'30d'`, in seconds. -/
def refreshTokenLifetime : Int := 30 * 24 * 60 * 60

/-- The hard-coded 30-day database expiry of a stored refresh-token row
(`expiresAt.setDate(expiresAt.getDate() + 30)`), in seconds. -/
def storedRowLifetime : Int := 30 * 24 * 60 * 60

/-- A row of the SQL `refresh_tokens` table, as declared in
`schema.sql`. -/
structure SqlRefreshTokenRow where
  id : String
  userId : String
  token : Token
  expiresAt : Int
deriving DecidableEq, Repr

/-- The SQL schema keeps no revocation flag: the implementation revokes by
deleting the row, so every stored row is unrevoked.  This constant records
that schema fact so the sweep's contract can be stated in the spec's
vocabulary. -/
def rowRevoked (_ : SqlRefreshTokenRow) : Bool := false

/-- Access/refresh pair returned by the SQL `generateTokens`. -/
structure SqlTokenPair where
  accessToken : Token
  refreshToken : Token
deriving DecidableEq, Repr

/-- `AuthService.generateTokens` of the SQL implementation: BOTH tokens are
JWTs signed with `config.JWT_SECRET` over `{userId, email, role}`; the
refresh token is stored with a 30-day expiry.  `newId` is the generated
row id. -/
def generateTokens (rows : List SqlRefreshTokenRow) (newId : String)
    (userId email role : String) (now : Int) :
    List SqlRefreshTokenRow × SqlTokenPair :=
  let payload : JwtPayload :=
    { userId := userId, email := email, role := role, facilityId := none }
  let access := Token.signed payload (now + accessTokenLifetime) JWT_SECRET
  let refresh := Token.signed payload (now + refreshTokenLifetime) JWT_SECRET
  (rows ++ [{ id := newId, userId := userId, token := refresh,
              expiresAt := now + storedRowLifetime }],
   { accessToken := access, refreshToken := refresh })

/-- Failure of the SQL `AuthService.logout` (`'Invalid refresh token'`,
HTTP 401, raised when the `DELETE` matched no row). -/
inductive SqlLogoutError where
  | invalidRefreshToken
deriving DecidableEq, Repr

/-- `AuthService.logout` of the SQL implementation:
`DELETE FROM refresh_tokens WHERE token = ?`, erroring when nothing was
deleted. -/
def logout (t : Token) (rows : List SqlRefreshTokenRow) :
    Except SqlLogoutError (List SqlRefreshTokenRow) :=
  let remaining := rows.filter (fun r => r.token ≠ t)
  if remaining.length = rows.length then .error .invalidRefreshToken
  else .ok remaining

/-- `AuthService.cleanExpiredTokens`, the body of the hourly sweep started
by `startCleanupInterval`:
`DELETE FROM refresh_tokens WHERE expires_at <= CURRENT_TIMESTAMP`. -/
def cleanExpiredTokens (now : Int) (rows : List SqlRefreshTokenRow) :
    List SqlRefreshTokenRow :=
  rows.filter (fun r => now < r.expiresAt)

end Sql

/-! ### Patient-access authorization (`src/middleware/auth.ts`,
`authorizePatientAccess`). -/

/-- User roles of the SQL implementation (`UserRole` in
`src/types/index.ts`). -/
inductive UserRole where
  | doctor
  | nurse
  | admin
  | clinician
deriving DecidableEq, Repr

/-- The authenticated principal attached to the request (`req.user`). -/
structure ReqUser where
  id : String
  role : UserRole
deriving DecidableEq, Repr

/-- A `patients` row, restricted to the columns the ownership query
reads. -/
structure PatientRow where
  id : String
  createdBy : String
deriving DecidableEq, Repr

/-- A `visits` row, restricted to the columns the ownership query reads. -/
structure VisitRow where
  id : String
  patientId : String
  doctorId : String
deriving DecidableEq, Repr

/-- The clinical tables the ownership query joins. -/
structure ClinicalDb where
  patients : List PatientRow
  visits : List VisitRow
deriving DecidableEq, Repr

/-- Outcomes other than `next()` of `authorizePatientAccess`: every one of
them denies the request. -/
inductive PatientAccessError where
  | authRequired
  | patientIdRequired
  | lookupFailed
  | accessDenied
deriving DecidableEq, Repr

/-- The single existence query of `authorizePatientAccess`: some patient row
has the requested id and is either created by the user or carries a visit
whose doctor is the user. -/
def patientAccessQuery (db : ClinicalDb) (patientId userId : String) : Bool :=
  db.patients.any (fun p =>
    p.id == patientId &&
      (p.createdBy == userId ||
        db.visits.any (fun v => v.patientId == p.id && v.doctorId == userId)))

/-- `authorizePatientAccess`: require an authenticated user and a patient
id, let admins through unconditionally, otherwise run the ownership query;
a throwing lookup (`lookupFails`) propagates as an error, i.e. a denial. -/
def authorizePatientAccess (reqUser : Option ReqUser)
    (patientIdParam : Option String) (db : ClinicalDb) (lookupFails : Bool) :
    Except PatientAccessError Unit :=
  match reqUser with
  | none => .error .authRequired
  | some u =>
      match patientIdParam with
      | none => .error .patientIdRequired
      | some pid =>
          if u.role = UserRole.admin then .ok ()
          else if lookupFails then .error .lookupFailed
          else if patientAccessQuery db pid u.id then .ok ()
          else .error .accessDenied

/-- The route-level access-token verification step (`authenticateToken` in
the ORM middleware calls `JwtService.verifyAccessToken` on the bearer token
before any lookup): no table is consulted, in particular not the
refresh-token table.  The state parameter records that fact so
state-independence can be stated. -/
def verifyAccessInState (_st : OrmState) (t : Token) (now : Int) :
    Except JwtService.AccessVerifyError JwtPayload :=
  JwtService.verifyAccessToken t now

/-- Pairwise distinctness of a key over a list, as a decidable check;
used to state the `UNIQUE` column constraints (token strings, user ids,
emails). -/
def distinctKeys {α : Type} (key : α → String) : List α → Bool
  | [] => true
  | x :: xs => xs.all (fun y => key y != key x) && distinctKeys key xs

theorem distinctKeys_cons {α : Type} (key : α → String) (x : α) (xs : List α)
    (h : distinctKeys key (x :: xs) = true) :
    (∀ y ∈ xs, key y ≠ key x) ∧ distinctKeys key xs = true := by
  simp only [distinctKeys, Bool.and_eq_true, List.all_eq_true, bne_iff_ne] at h
  exact h

theorem eq_of_distinctKeys {α : Type} (key : α → String) (l : List α)
    (h : distinctKeys key l = true) {a b : α}
    (ha : a ∈ l) (hb : b ∈ l) (hk : key a = key b) : a = b := by
  induction l with
  | nil => cases ha
  | cons x xs ih =>
      obtain ⟨hx, hxs⟩ := distinctKeys_cons key x xs h
      rcases List.mem_cons.mp ha with rfl | ha' <;>
        rcases List.mem_cons.mp hb with rfl | hb'
      · rfl
      · exact absurd hk.symm (hx b hb')
      · exact absurd hk (hx a ha')
      · exact ih hxs ha' hb'

theorem distinctKeys_append_cons {α : Type} (key : α → String)
    (pre post : List α) (r : α)
    (h : distinctKeys key (pre ++ r :: post) = true) :
    ∀ x ∈ post, key x ≠ key r := by
  induction pre with
  | nil => exact (distinctKeys_cons key r post h).1
  | cons a pres ih => exact ih (distinctKeys_cons key a (pres ++ r :: post) h).2

theorem find?_eq_some_of_unique {α : Type} (p : α → Bool) (l : List α) (a : α)
    (ha : a ∈ l) (hpa : p a = true)
    (huniq : ∀ b ∈ l, p b = true → b = a) :
    l.find? p = some a := by
  induction l with
  | nil => cases ha
  | cons x xs ih =>
      by_cases hx : p x = true
      · have hxa : x = a := huniq x (List.mem_cons_self x xs) hx
        rw [List.find?_cons_of_pos _ hx, hxa]
      · have hx' : ¬ p x := fun hc => hx hc
        rw [List.find?_cons_of_neg _ hx']
        rcases List.mem_cons.mp ha with rfl | ha'
        · exact absurd hpa hx
        · exact ih ha' (fun b hb hpb => huniq b (List.mem_cons_of_mem x hb) hpb)

namespace AuthService

theorem revokeFirstMatching_eq_none (t : String) (now : Int) (ip : Option String)
    (l : List RefreshTokenRow) :
    revokeFirstMatching t now ip l = none ↔
      ∀ r ∈ l, ¬(r.token = t ∧ r.isRevoked = false) := by
  induction l with
  | nil => simp [revokeFirstMatching]
  | cons a rs ih =>
      by_cases hc : a.token = t ∧ a.isRevoked = false
      · rw [revokeFirstMatching, if_pos hc]
        constructor
        · intro h; cases h
        · intro hall; exact absurd hc (hall a (List.mem_cons_self a rs))
      · rw [revokeFirstMatching, if_neg hc]
        cases hrec : revokeFirstMatching t now ip rs with
        | none =>
            constructor
            · intro _ r hr
              rcases List.mem_cons.mp hr with rfl | hr'
              · exact hc
              · exact (ih.mp hrec) r hr'
            · intro _; rfl
        | some pr =>
            obtain ⟨found, rs'⟩ := pr
            constructor
            · intro h; cases h
            · intro hall
              have hnone : revokeFirstMatching t now ip rs = none :=
                ih.mpr (fun r hr => hall r (List.mem_cons_of_mem a hr))
              rw [hnone] at hrec
              cases hrec

theorem revokeFirstMatching_eq_some (t : String) (now : Int) (ip : Option String) :
    ∀ (l : List RefreshTokenRow) (r : RefreshTokenRow) (l' : List RefreshTokenRow),
      revokeFirstMatching t now ip l = some (r, l') →
      ∃ pre post,
        l = pre ++ r :: post ∧
        l' = pre ++ r.revoke now ip :: post ∧
        (∀ x ∈ pre, ¬(x.token = t ∧ x.isRevoked = false)) ∧
        r.token = t ∧ r.isRevoked = false := by
  intro l
  induction l with
  | nil => intro r l' h; cases h
  | cons a rs ih =>
      intro r l' h
      by_cases hc : a.token = t ∧ a.isRevoked = false
      · rw [revokeFirstMatching, if_pos hc] at h
        simp only [Option.some.injEq, Prod.mk.injEq] at h
        obtain ⟨rfl, rfl⟩ := h
        exact ⟨[], rs, rfl, rfl, (by intro x hx; cases hx), hc.1, hc.2⟩
      · rw [revokeFirstMatching, if_neg hc] at h
        cases hrec : revokeFirstMatching t now ip rs with
        | none => rw [hrec] at h; cases h
        | some pr =>
            obtain ⟨found, rs'⟩ := pr
            rw [hrec] at h
            simp only [Option.some.injEq, Prod.mk.injEq] at h
            obtain ⟨rfl, rfl⟩ := h
            obtain ⟨pre, post, hl, hl', hpre, ht, hrev⟩ := ih found rs' hrec
            refine ⟨a :: pre, post, by rw [hl]; rfl, by rw [hl']; rfl, ?_, ht, hrev⟩
            intro x hx
            rcases List.mem_cons.mp hx with rfl | hx'
            · exact hc
            · exact hpre x hx'

theorem rotate_ok_elim (st : OrmState) (t : String) (ip : Option String)
    (now : Int) (bytes : List Nat) (st' : OrmState)
    (pair : JwtService.TokenPair)
    (h : rotateRefreshToken st t ip now bytes = .ok (st', pair)) :
    ∃ row revokedRows user,
      revokeFirstMatching t now ip st.refreshTokens = some (row, revokedRows) ∧
      row.isActive now = true ∧
      st.users.find? (fun u => u.id == row.userId) = some user ∧
      user.isActive = true ∧
      pair = JwtService.generateTokenPair
        ⟨user.id, user.email, user.role, user.facilityId⟩ now bytes ∧
      st' = { st with refreshTokens :=
        saveRefreshToken revokedRows pair.refreshToken user.id ip now } := by
  unfold rotateRefreshToken at h
  cases hfind : revokeFirstMatching t now ip st.refreshTokens with
  | none => rw [hfind] at h; cases h
  | some pr =>
      obtain ⟨row, revokedRows⟩ := pr
      rw [hfind] at h
      simp only at h
      by_cases hact : row.isActive now = false
      · rw [if_pos hact] at h; cases h
      · rw [if_neg hact] at h
        cases hfu : st.users.find? (fun u => u.id == row.userId) with
        | none => rw [hfu] at h; cases h
        | some user =>
            rw [hfu] at h
            simp only at h
            by_cases hua : user.isActive = false
            · rw [if_pos hua] at h; cases h
            · rw [if_neg hua] at h
              simp only [Except.ok.injEq, Prod.mk.injEq] at h
              obtain ⟨h1, h2⟩ := h
              have hact' : row.isActive now = true := by
                cases hb : row.isActive now
                · exact absurd hb hact
                · rfl
              have hua' : user.isActive = true := by
                cases hb : user.isActive
                · exact absurd hb hua
                · rfl
              refine ⟨row, revokedRows, user, rfl, hact', hfu, hua', h2.symm, ?_⟩
              rw [← h1, h2]

theorem rotate_not_ioet_of_active (st : OrmState) (t : String)
    (ip : Option String) (now : Int) (bytes : List Nat)
    (row : RefreshTokenRow) (revokedRows : List RefreshTokenRow)
    (hfind : revokeFirstMatching t now ip st.refreshTokens =
      some (row, revokedRows))
    (hact : row.isActive now = true) :
    rotateRefreshToken st t ip now bytes ≠
      .error .invalidOrExpiredRefreshToken := by
  unfold rotateRefreshToken
  rw [hfind]
  simp only
  rw [if_neg (by rw [hact]; intro hcontra; cases hcontra)]
  cases hfu : st.users.find? (fun u => u.id == row.userId) with
  | none => intro hcontra; cases hcontra
  | some user =>
      simp only
      by_cases hua : user.isActive = false
      · rw [if_pos hua]; intro hcontra; cases hcontra
      · rw [if_neg hua]; intro hcontra; cases hcontra

end AuthService

/-! ### Claim theorems -/

/-- C1: once a refresh token has been accepted by rotation
(`AuthService.refreshToken` of the ORM implementation), presenting the same
token string again fails with `InvalidOrExpiredToken` — at any later time,
from any client address, whatever randomness the second call draws, and in
particular even while the stored row's `expiresAt` is still in the future.
Hypotheses: the first rotation succeeded, the freshly generated token
differs from the presented one (`crypto.randomBytes(64)` collides with a
stored token only with negligible probability), and stored token strings
are pairwise distinct (the `UNIQUE` column constraint). -/
theorem c1_rotated_token_never_reusable
    (st : OrmState) (t : String) (ip : Option String) (now : Int)
    (bytes : List Nat) (st' : OrmState) (pair : JwtService.TokenPair)
    (hok : AuthService.rotateRefreshToken st t ip now bytes = .ok (st', pair))
    (hfresh : JwtService.generateRefreshToken bytes ≠ t)
    (huniq : distinctKeys RefreshTokenRow.token st.refreshTokens = true) :
    ∀ (ip' : Option String) (now' : Int) (bytes' : List Nat),
      AuthService.rotateRefreshToken st' t ip' now' bytes' =
        .error .invalidOrExpiredRefreshToken := by
  intro ip' now' bytes'
  obtain ⟨row, revokedRows, user, hfind, hact, hfu, hua, hpair, hst'⟩ :=
    AuthService.rotate_ok_elim st t ip now bytes st' pair hok
  obtain ⟨pre, post, hl, hl', hpre, ht, hrev⟩ :=
    AuthService.revokeFirstMatching_eq_some t now ip
      st.refreshTokens row revokedRows hfind
  have hnone : AuthService.revokeFirstMatching t now' ip' st'.refreshTokens
      = none := by
    rw [AuthService.revokeFirstMatching_eq_none]
    intro r hr
    rw [hst'] at hr
    simp only [AuthService.saveRefreshToken] at hr
    rcases List.mem_append.mp hr with hr1 | hr2
    · rw [hl'] at hr1
      rcases List.mem_append.mp hr1 with hp | hq
      · exact hpre r hp
      · rcases List.mem_cons.mp hq with rfl | hpost
        · intro hcontra
          simp [RefreshTokenRow.revoke] at hcontra
        · have hne : RefreshTokenRow.token r ≠ RefreshTokenRow.token row :=
            distinctKeys_append_cons RefreshTokenRow.token pre post row
              (by rw [← hl]; exact huniq) r hpost
          intro hcontra
          exact hne (hcontra.1.trans ht.symm)
    · have hr2' := List.mem_singleton.mp hr2
      subst hr2'
      intro hcontra
      rw [hpair] at hcontra
      exact hfresh hcontra.1
  unfold AuthService.rotateRefreshToken
  rw [hnone]

/-- Concrete user for exercising the ORM auth flows. -/
def sampleUser : UserRow :=
  { id := "u1", email := "doctor@afyatrack.com",
    password := PasswordService.hashPassword "Password123!",
    role := "doctor", facilityId := none, isActive := true }

/-- Concrete unrevoked refresh-token row owned by `sampleUser`, expiring at
time 100. -/
def sampleRow : RefreshTokenRow :=
  { token := "oldtok", userId := "u1", expiresAt := 100,
    isRevoked := false, createdByIp := none, revokedByIp := none,
    revokedAt := none }

/-- Concrete ORM state: one active user, one active refresh token. -/
def sampleState : OrmState :=
  { users := [sampleUser], refreshTokens := [sampleRow] }

/-- Concrete randomness for the rotation's `crypto.randomBytes(64)`. -/
def sampleBytes : List Nat := List.replicate 64 171

/-- The token pair minted by rotating `sampleRow` at time 0. -/
def samplePair : JwtService.TokenPair :=
  JwtService.generateTokenPair
    ⟨"u1", "doctor@afyatrack.com", "doctor", none⟩ 0 sampleBytes

/-- The state after rotating `sampleRow` at time 0. -/
def sampleRotatedState : OrmState :=
  { users := [sampleUser],
    refreshTokens :=
      [sampleRow.revoke 0 none,
       { token := JwtService.generateRefreshToken sampleBytes,
         userId := "u1", expiresAt := 0 + JwtService.refreshTokenLifetime,
         isRevoked := false, createdByIp := none, revokedByIp := none,
         revokedAt := none }] }

/-- Witness for C1: rotating the sample state at time 0 succeeds, and a
second presentation of the same token at time 50 — well before the row's
expiry — fails with `InvalidOrExpiredToken`. -/
theorem c1_witness :
    AuthService.rotateRefreshToken sampleState "oldtok" none 0 sampleBytes =
      .ok (sampleRotatedState, samplePair) ∧
    JwtService.generateRefreshToken sampleBytes ≠ "oldtok" ∧
    distinctKeys RefreshTokenRow.token sampleState.refreshTokens = true ∧
    AuthService.rotateRefreshToken sampleRotatedState "oldtok" none 50
        sampleBytes =
      .error .invalidOrExpiredRefreshToken :=
  ⟨by rfl, by decide, by decide,
   c1_rotated_token_never_reusable sampleState "oldtok" none 0 sampleBytes
     sampleRotatedState samplePair (by rfl) (by decide) (by decide)
     none 50 sampleBytes⟩

/-- C3: under the `UNIQUE` token-column constraint, rotation fails with
`InvalidOrExpiredToken` exactly when no stored row carries the presented
token string, or the matching row is revoked, or it is past expiry; and on
success the matching row is kept (never deleted) with `revoked`,
`revokedAt` and `revokedByIp` set, while exactly one new refresh-token row
is appended for the same user, the users table unchanged. -/
theorem c3_rotation_failure_iff_and_success_shape
    (st : OrmState) (t : String) (ip : Option String) (now : Int)
    (bytes : List Nat)
    (huniq : distinctKeys RefreshTokenRow.token st.refreshTokens = true) :
    (AuthService.rotateRefreshToken st t ip now bytes =
        .error .invalidOrExpiredRefreshToken ↔
      (∀ r ∈ st.refreshTokens, r.token ≠ t) ∨
      (∃ r ∈ st.refreshTokens, r.token = t ∧ r.isRevoked = true) ∨
      (∃ r ∈ st.refreshTokens, r.token = t ∧ r.expiresAt ≤ now)) ∧
    (∀ (st' : OrmState) (pair : JwtService.TokenPair),
      AuthService.rotateRefreshToken st t ip now bytes = .ok (st', pair) →
      ∃ pre row post,
        st.refreshTokens = pre ++ row :: post ∧
        row.token = t ∧ row.isRevoked = false ∧
        st'.users = st.users ∧
        st'.refreshTokens =
          pre ++ row.revoke now ip :: post ++
            [{ token := JwtService.generateRefreshToken bytes,
               userId := row.userId,
               expiresAt := now + JwtService.refreshTokenLifetime,
               isRevoked := false, createdByIp := ip,
               revokedByIp := none, revokedAt := none }]) := by
  cases hfind : AuthService.revokeFirstMatching t now ip st.refreshTokens with
  | none =>
      have hall := (AuthService.revokeFirstMatching_eq_none t now ip
        st.refreshTokens).mp hfind
      constructor
      · constructor
        · intro _
          by_cases hex : ∃ r ∈ st.refreshTokens, r.token = t
          · obtain ⟨r, hr, hrt⟩ := hex
            refine Or.inr (Or.inl ⟨r, hr, hrt, ?_⟩)
            cases hb : r.isRevoked
            · exact absurd ⟨hrt, hb⟩ (hall r hr)
            · rfl
          · exact Or.inl (fun r hr hrt => hex ⟨r, hr, hrt⟩)
        · intro _
          unfold AuthService.rotateRefreshToken
          rw [hfind]
      · intro st' pair hok
        exfalso
        unfold AuthService.rotateRefreshToken at hok
        rw [hfind] at hok
        cases hok
  | some pr =>
      obtain ⟨row, revokedRows⟩ := pr
      obtain ⟨pre, post, hl, hl', hpre, ht, hrev⟩ :=
        AuthService.revokeFirstMatching_eq_some t now ip
          st.refreshTokens row revokedRows hfind
      have hrowmem : row ∈ st.refreshTokens := by
        rw [hl]
        exact List.mem_append.mpr (Or.inr (List.mem_cons_self row post))
      by_cases hact : row.isActive now = true
      · have hlt : now < row.expiresAt := by
          have h1 := hact
          simp only [RefreshTokenRow.isActive, Bool.and_eq_true,
            decide_eq_true_eq] at h1
          exact h1.2
        constructor
        · constructor
          · intro hioet
            exact absurd hioet
              (AuthService.rotate_not_ioet_of_active st t ip now bytes
                row revokedRows hfind hact)
          · intro hrhs
            exfalso
            rcases hrhs with hnone | ⟨r, hr, hrt, hrrev⟩ | ⟨r, hr, hrt, hexp⟩
            · exact hnone row hrowmem ht
            · have heqr : r = row :=
                eq_of_distinctKeys RefreshTokenRow.token _ huniq hr hrowmem
                  (hrt.trans ht.symm)
              rw [heqr, hrev] at hrrev
              cases hrrev
            · have heqr : r = row :=
                eq_of_distinctKeys RefreshTokenRow.token _ huniq hr hrowmem
                  (hrt.trans ht.symm)
              rw [heqr] at hexp
              omega
        · intro st' pair hok
          obtain ⟨row2, rr2, user, hfind2, hact2, hfu, hua, hpair, hst'⟩ :=
            AuthService.rotate_ok_elim st t ip now bytes st' pair hok
          rw [hfind] at hfind2
          simp only [Option.some.injEq, Prod.mk.injEq] at hfind2
          obtain ⟨hrow2, hrr2⟩ := hfind2
          subst hrow2
          subst hrr2
          have huid : user.id = row.userId := by
            have hp := List.find?_some hfu
            simpa [beq_iff_eq] using hp
          refine ⟨pre, row, post, hl, ht, hrev, by rw [hst'], ?_⟩
          rw [hst']
          simp only [AuthService.saveRefreshToken]
          rw [hl', hpair]
          simp [JwtService.generateTokenPair, JwtService.generateRefreshToken,
            huid, List.append_assoc]
      · have hactf : row.isActive now = false := by
          cases hb : row.isActive now
          · rfl
          · exact absurd hb hact
        have hexp : row.expiresAt ≤ now := by
          have h1 := hactf
          simp only [RefreshTokenRow.isActive, hrev, Bool.not_false,
            Bool.true_and, decide_eq_false_iff_not] at h1
          omega
        constructor
        · constructor
          · intro _
            exact Or.inr (Or.inr ⟨row, hrowmem, ht, hexp⟩)
          · intro _
            unfold AuthService.rotateRefreshToken
            rw [hfind]
            simp only
            rw [if_pos hactf]
        · intro st' pair hok
          exfalso
          unfold AuthService.rotateRefreshToken at hok
          rw [hfind] at hok
          simp only at hok
          rw [if_pos hactf] at hok
          cases hok

/-- Witness for C3: presenting a token string that matches no stored row of
the sample state fails with `InvalidOrExpiredToken`. -/
theorem c3_witness :
    AuthService.rotateRefreshToken sampleState "gone" none 0 sampleBytes =
      .error .invalidOrExpiredRefreshToken :=
  (c3_rotation_failure_iff_and_success_shape sampleState "gone" none 0
    sampleBytes (by decide)).1.mpr (Or.inl (by decide))

/-- Deactivated user for the C2 counterexample. -/
def deactivatedUser : UserRow :=
  { id := "u2", email := "former@afyatrack.com",
    password := PasswordService.hashPassword "Password123!",
    role := "doctor", facilityId := none, isActive := false }

/-- Unrevoked, unexpired refresh-token row owned by `deactivatedUser`. -/
def orphanRow : RefreshTokenRow :=
  { token := "livetok", userId := "u2", expiresAt := 100,
    isRevoked := false, createdByIp := none, revokedByIp := none,
    revokedAt := none }

/-- State with an active token whose owning user is deactivated. -/
def deactivatedState : OrmState :=
  { users := [deactivatedUser], refreshTokens := [orphanRow] }

/-- C2 counterexample: a stored row that is not revoked and not expired is
nevertheless rejected when presented for rotation, because its owning user
account is deactivated — so "usable (accepted when presented for rotation)
iff not revoked and now < expiresAt" fails as stated. -/
theorem c2_counterexample :
    orphanRow.isRevoked = false ∧ (0 : Int) < orphanRow.expiresAt ∧
    AuthService.rotateRefreshToken deactivatedState "livetok" none 0
        sampleBytes =
      .error .userDeactivated :=
  ⟨rfl, by decide, by rfl⟩

/-- C2 (amended): `RefreshToken.isActive` returns true exactly when the
row is not revoked and `now` is strictly before `expiresAt`; and — under
the unique-column constraints on token strings and user ids — a presented
token is accepted for rotation iff some stored row carries it unrevoked
and unexpired AND the owning user account exists and is active. -/
theorem c2_isActive_iff_and_acceptance
    : (∀ (r : RefreshTokenRow) (now : Int),
        r.isActive now = true ↔ r.isRevoked = false ∧ now < r.expiresAt) ∧
      (∀ (st : OrmState) (t : String) (ip : Option String) (now : Int)
          (bytes : List Nat),
        distinctKeys RefreshTokenRow.token st.refreshTokens = true →
        distinctKeys UserRow.id st.users = true →
        ((∃ out, AuthService.rotateRefreshToken st t ip now bytes = .ok out) ↔
          ∃ r ∈ st.refreshTokens, r.token = t ∧ r.isRevoked = false ∧
            now < r.expiresAt ∧
            ∃ u ∈ st.users, u.id = r.userId ∧ u.isActive = true)) := by
  constructor
  · intro r now
    simp [RefreshTokenRow.isActive, Bool.and_eq_true, Bool.not_eq_true',
      decide_eq_true_eq]
  · intro st t ip now bytes huniq huuniq
    constructor
    · rintro ⟨⟨st', pair⟩, hok⟩
      obtain ⟨row, rr, user, hfind, hact, hfu, hua, hpair, hst'⟩ :=
        AuthService.rotate_ok_elim st t ip now bytes st' pair hok
      obtain ⟨pre, post, hl, hl', hpre, ht, hrev⟩ :=
        AuthService.revokeFirstMatching_eq_some t now ip
          st.refreshTokens row rr hfind
      have hrowmem : row ∈ st.refreshTokens := by
        rw [hl]
        exact List.mem_append.mpr (Or.inr (List.mem_cons_self row post))
      have hlt : now < row.expiresAt := by
        have h1 := hact
        simp only [RefreshTokenRow.isActive, Bool.and_eq_true,
          decide_eq_true_eq] at h1
        exact h1.2
      have huid : user.id = row.userId := by
        simpa [beq_iff_eq] using List.find?_some hfu
      exact ⟨row, hrowmem, ht, hrev, hlt,
        user, List.mem_of_find?_eq_some hfu, huid, hua⟩
    · rintro ⟨r, hr, hrt, hrrev, hrlt, u, hu, huid, hua⟩
      cases hfind : AuthService.revokeFirstMatching t now ip
          st.refreshTokens with
      | none =>
          exact absurd ⟨hrt, hrrev⟩
            ((AuthService.revokeFirstMatching_eq_none t now ip
              st.refreshTokens).mp hfind r hr)
      | some pr =>
          obtain ⟨row, rows'⟩ := pr
          obtain ⟨pre, post, hl, hl', hpre, ht, hrev⟩ :=
            AuthService.revokeFirstMatching_eq_some t now ip
              st.refreshTokens row rows' hfind
          have hrowmem : row ∈ st.refreshTokens := by
            rw [hl]
            exact List.mem_append.mpr (Or.inr (List.mem_cons_self row post))
          have heq : row = r :=
            eq_of_distinctKeys RefreshTokenRow.token _ huniq hrowmem hr
              (ht.trans hrt.symm)
          subst heq
          have hact : row.isActive now = true := by
            simp [RefreshTokenRow.isActive, hrrev, hrlt]
          have hfu : st.users.find? (fun x => x.id == row.userId) = some u := by
            apply find?_eq_some_of_unique _ _ u hu (by simp [beq_iff_eq, huid])
            intro v hv hpv
            have hvid : v.id = row.userId := by simpa [beq_iff_eq] using hpv
            exact eq_of_distinctKeys UserRow.id _ huuniq hv hu
              (hvid.trans huid.symm)
          exact ⟨_, by
            unfold AuthService.rotateRefreshToken
            rw [hfind]
            simp only
            rw [if_neg (by simp [hact])]
            rw [hfu]
            simp only
            rw [if_neg (by simp [hua])]⟩

/-- Witness for C2's amended theorem: the sample state accepts its stored
token at time 0 (the acceptance characterization applied concretely). -/
theorem c2_witness :
    ∃ out, AuthService.rotateRefreshToken sampleState "oldtok" none 0
      sampleBytes = .ok out :=
  (c2_isActive_iff_and_acceptance.2 sampleState "oldtok" none 0 sampleBytes
    (by decide) (by decide)).mpr
    ⟨sampleRow, by decide, rfl, rfl, by decide,
     sampleUser, by decide, rfl, rfl⟩

/-- Concrete row of the SQL `refresh_tokens` table. -/
def sqlSampleRow : Sql.SqlRefreshTokenRow :=
  { id := "rt1", userId := "u1", token := .randomHex "tok", expiresAt := 100 }

/-- C4 counterexample: against the SQL implementation's logout (one of the
two cited `AuthService.logout` symbols), revoking twice is NOT a no-op the
second time: the first call deletes the row, and the second call fails with
`InvalidRefreshToken` instead of completing without error. -/
theorem c4_counterexample :
    Sql.logout (.randomHex "tok") [sqlSampleRow] = .ok [] ∧
    Sql.logout (.randomHex "tok") [] =
      .error Sql.SqlLogoutError.invalidRefreshToken :=
  ⟨by rfl, by rfl⟩

/-- C4 (amended): the ORM implementation's logout is idempotent — a second
application with any client address and time leaves the table exactly as
the first left it, and the operation never errors; the SQL implementation's
logout instead deletes the matching rows and fails with
`InvalidRefreshToken` whenever nothing matched, so its second call on the
same token always errors. -/
theorem c4_orm_logout_idempotent_sql_logout_not
    : (∀ (t : String) (ip1 ip2 : Option String) (now1 now2 : Int)
         (rows : List RefreshTokenRow),
        AuthService.logout t ip2 now2 (AuthService.logout t ip1 now1 rows) =
          AuthService.logout t ip1 now1 rows) ∧
      (∀ (t : Token) (rows rows' : List Sql.SqlRefreshTokenRow),
        Sql.logout t rows = .ok rows' →
        Sql.logout t rows' = .error .invalidRefreshToken) := by
  constructor
  · intro t ip1 ip2 now1 now2 rows
    induction rows with
    | nil => rfl
    | cons r rs ih =>
        by_cases hc : r.token = t
        · by_cases hr : r.isRevoked
          · simp [AuthService.logout, hc, hr]
          · simp [AuthService.logout, hc, hr, RefreshTokenRow.revoke]
        · simp [AuthService.logout, hc, ih]
  · intro t rows rows' hok
    unfold Sql.logout at hok ⊢
    by_cases hlen : (rows.filter (fun r => r.token ≠ t)).length = rows.length
    · rw [if_pos hlen] at hok; cases hok
    · rw [if_neg hlen] at hok
      simp only [Except.ok.injEq] at hok
      subst hok
      have hfix : (rows.filter (fun r => r.token ≠ t)).filter
          (fun r => r.token ≠ t) = rows.filter (fun r => r.token ≠ t) := by
        apply List.filter_eq_self.mpr
        intro a ha
        have hmem := List.mem_filter.mp ha
        exact hmem.2
      rw [if_pos (by rw [hfix])]

/-- Witness for C4's amended theorem: a second ORM logout of the sample row
changes nothing, and a second SQL logout of the deleted row errors. -/
theorem c4_witness :
    AuthService.logout "oldtok" none 7
        (AuthService.logout "oldtok" none 3 [sampleRow]) =
      AuthService.logout "oldtok" none 3 [sampleRow] ∧
    Sql.logout (.randomHex "tok") [] =
      .error Sql.SqlLogoutError.invalidRefreshToken :=
  ⟨c4_orm_logout_idempotent_sql_logout_not.1 "oldtok" none none 3 7
     [sampleRow],
   c4_orm_logout_idempotent_sql_logout_not.2 (.randomHex "tok")
     [sqlSampleRow] [] (by rfl)⟩

theorem hexChars_length (bytes : List Nat) :
    (hexChars bytes).length = 2 * bytes.length := by
  induction bytes with
  | nil => rfl
  | cons b bs ih => simp [hexChars, ih]; omega

theorem isHexChar_hexDigit (n : Nat) (h : n < 16) :
    isHexChar (hexDigit n) = true := by
  interval_cases n <;> decide

theorem isHexChar_of_mem_hexChars (bytes : List Nat)
    (hb : ∀ b ∈ bytes, b < 256) :
    ∀ c ∈ hexChars bytes, isHexChar c = true := by
  induction bytes with
  | nil => intro c hc; cases hc
  | cons b bs ih =>
      intro c hc
      have hb0 : b < 256 := hb b (List.mem_cons_self b bs)
      rcases List.mem_cons.mp hc with rfl | hc'
      · exact isHexChar_hexDigit _ (Nat.div_lt_of_lt_mul (by omega))
      · rcases List.mem_cons.mp hc' with rfl | hc''
        · exact isHexChar_hexDigit _ (Nat.mod_lt _ (by omega))
        · exact ih (fun x hx => hb x (List.mem_cons_of_mem _ hx)) c hc''

/-- C5 counterexample: the SQL implementation's `generateTokens` — one of
the two cited token-pair issuers — returns as refresh token a JWT signed
with the server secret, not an opaque 128-hex-character random string: its
validity is established by `jwt.verify` alone, with no database lookup, and
it equals no hex encoding of random bytes. -/
theorem c5_counterexample :
    (Sql.generateTokens [] "rt1" "u1" "doc@afyatrack.com" "doctor"
        0).2.refreshToken =
      Token.signed ⟨"u1", "doc@afyatrack.com", "doctor", none⟩
        Sql.refreshTokenLifetime Sql.JWT_SECRET ∧
    jwtVerify
        (Sql.generateTokens [] "rt1" "u1" "doc@afyatrack.com" "doctor"
          0).2.refreshToken
        Sql.JWT_SECRET 0 =
      .ok ⟨"u1", "doc@afyatrack.com", "doctor", none⟩ ∧
    ¬ ∃ bytes : List Nat,
        (Sql.generateTokens [] "rt1" "u1" "doc@afyatrack.com" "doctor"
            0).2.refreshToken =
          Token.randomHex (hexEncode bytes) := by
  refine ⟨by rfl, by rfl, ?_⟩
  rintro ⟨bytes, h⟩
  cases h

/-- C5 (amended): refresh tokens issued through the ORM pipeline
(`JwtService.generateRefreshToken`, used by login, registration and
rotation via `generateTokenPair`) are opaque hex renderings of the 64 drawn
random bytes — 128 lower-case hex characters; the SQL implementation's
`generateTokens` instead issues a signed JWT as its refresh token. -/
theorem c5_orm_refresh_hex_sql_refresh_signed
    : (∀ bytes : List Nat, bytes.length = 64 → (∀ b ∈ bytes, b < 256) →
        (JwtService.generateRefreshToken bytes).length = 128 ∧
        ∀ c ∈ (JwtService.generateRefreshToken bytes).data,
          isHexChar c = true) ∧
      (∀ (p : JwtPayload) (now : Int) (bytes : List Nat),
        (JwtService.generateTokenPair p now bytes).refreshToken =
          JwtService.generateRefreshToken bytes) ∧
      (∀ (rows : List Sql.SqlRefreshTokenRow)
          (newId userId email role : String) (now : Int),
        (Sql.generateTokens rows newId userId email role
            now).2.refreshToken =
          Token.signed ⟨userId, email, role, none⟩
            (now + Sql.refreshTokenLifetime) Sql.JWT_SECRET) := by
  refine ⟨?_, fun p now bytes => rfl,
    fun rows newId userId email role now => rfl⟩
  intro bytes hlen hb
  constructor
  · have h1 : (JwtService.generateRefreshToken bytes).length =
        (hexChars bytes).length := rfl
    rw [h1, hexChars_length, hlen]
  · intro c hc
    exact isHexChar_of_mem_hexChars bytes hb c hc

/-- Witness for C5's amended theorem: 64 concrete bytes hex-encode to a
128-character refresh token. -/
theorem c5_witness :
    sampleBytes.length = 64 ∧
    (JwtService.generateRefreshToken sampleBytes).length = 128 :=
  ⟨by decide,
   (c5_orm_refresh_hex_sql_refresh_signed.1 sampleBytes (by decide)
     (by decide)).1⟩

/-- C6: the hourly sweep (`cleanExpiredTokens`, run by
`startCleanupInterval`) deletes exactly the rows with `expiresAt <= now` or
`revoked = true`, and keeps exactly the rows with `revoked = false` and
`expiresAt > now`.  The table it sweeps is the SQL `refresh_tokens` table,
whose schema has no revocation column — a revoked token's row was already
deleted at revocation time — so `Sql.rowRevoked` is constantly `false` on
stored rows. -/
theorem c6_sweep_keeps_exactly_unrevoked_unexpired :
    ∀ (now : Int) (rows : List Sql.SqlRefreshTokenRow)
      (r : Sql.SqlRefreshTokenRow),
      r ∈ Sql.cleanExpiredTokens now rows ↔
        r ∈ rows ∧ Sql.rowRevoked r = false ∧ now < r.expiresAt := by
  intro now rows r
  simp [Sql.cleanExpiredTokens, List.mem_filter, Sql.rowRevoked]

/-- C7: access-token verification reads no storage, so its outcome is
unchanged by logout, by rotation, and by any other change of the
refresh-token table (two-run statement over states); consequently an
access token that is valid now still verifies, to the same payload, after
the session's refresh token has been revoked — until its own expiry
passes. -/
theorem c7_access_verification_unchanged_by_refresh_table :
    ∀ (st : OrmState) (t : Token) (now : Int) (rt : String)
      (ip : Option String) (now2 : Int),
      (verifyAccessInState
          { st with refreshTokens :=
              AuthService.logout rt ip now2 st.refreshTokens } t now =
        verifyAccessInState st t now) ∧
      (∀ (bytes : List Nat) (st' : OrmState) (pair : JwtService.TokenPair),
        AuthService.rotateRefreshToken st rt ip now2 bytes = .ok (st', pair) →
        verifyAccessInState st' t now = verifyAccessInState st t now) ∧
      (∀ st2 : OrmState,
        verifyAccessInState st2 t now = verifyAccessInState st t now) ∧
      (∀ (p : JwtPayload) (e : Int),
        t = Token.signed p e JwtService.ACCESS_TOKEN_SECRET → now < e →
        verifyAccessInState
          { st with refreshTokens :=
              AuthService.logout rt ip now2 st.refreshTokens } t now =
          .ok p) := by
  intro st t now rt ip now2
  refine ⟨rfl, fun _ _ _ _ => rfl, fun _ => rfl, ?_⟩
  rintro p e rfl hlt
  have hne : ¬ e ≤ now := not_le.mpr hlt
  simp [verifyAccessInState, JwtService.verifyAccessToken, jwtVerify, hne]

/-- Witness for C7: after logging the sample session out, its still-fresh
access token verifies to the embedded payload. -/
theorem c7_witness :
    verifyAccessInState
      { sampleState with refreshTokens :=
          AuthService.logout "oldtok" none 0 sampleState.refreshTokens }
      (Token.signed ⟨"u1", "doctor@afyatrack.com", "doctor", none⟩ 900
        JwtService.ACCESS_TOKEN_SECRET) 5 =
      .ok ⟨"u1", "doctor@afyatrack.com", "doctor", none⟩ :=
  (c7_access_verification_unchanged_by_refresh_table sampleState
    (Token.signed ⟨"u1", "doctor@afyatrack.com", "doctor", none⟩ 900
      JwtService.ACCESS_TOKEN_SECRET) 5 "oldtok" none 0).2.2.2
    ⟨"u1", "doctor@afyatrack.com", "doctor", none⟩ 900 rfl (by decide)

/-- C8: `verifyAccessToken` is a pure function of the token and the clock —
against any state it computes the same result as the stateless definition —
and on every input it either returns the embedded payload, or fails with
`ExpiredToken` exactly when the token is signed with the right secret but
past expiry, or fails with `InvalidToken` exactly when the token is not a
well-signed token at all; the defensive third error of the source is never
produced. -/
theorem c8_verify_access_token_pure_and_two_errors :
    ∀ (t : Token) (now : Int),
      (∀ st : OrmState,
        verifyAccessInState st t now = JwtService.verifyAccessToken t now) ∧
      ((∃ p e, t = Token.signed p e JwtService.ACCESS_TOKEN_SECRET ∧
          now < e ∧ JwtService.verifyAccessToken t now = .ok p) ∨
       (∃ p e, t = Token.signed p e JwtService.ACCESS_TOKEN_SECRET ∧
          e ≤ now ∧
          JwtService.verifyAccessToken t now =
            .error .accessTokenExpired) ∨
       ((∀ p e, t ≠ Token.signed p e JwtService.ACCESS_TOKEN_SECRET) ∧
          JwtService.verifyAccessToken t now =
            .error .invalidAccessToken)) := by
  intro t now
  refine ⟨fun _ => rfl, ?_⟩
  cases t with
  | randomHex v =>
      exact Or.inr (Or.inr ⟨(fun p e h => by cases h), rfl⟩)
  | signed p e s =>
      by_cases hs : s = JwtService.ACCESS_TOKEN_SECRET
      · subst hs
        by_cases he : e ≤ now
        · refine Or.inr (Or.inl ⟨p, e, rfl, he, ?_⟩)
          simp [JwtService.verifyAccessToken, jwtVerify, he]
        · refine Or.inl ⟨p, e, rfl, lt_of_not_le he, ?_⟩
          simp [JwtService.verifyAccessToken, jwtVerify, he]
      · refine Or.inr (Or.inr ⟨?_, ?_⟩)
        · intro p' e' h
          injection h with h1 h2 h3
          exact hs h3
        · simp [JwtService.verifyAccessToken, jwtVerify, hs]

/-- C9: `authorizePatientAccess` lets a request through exactly when the
identity is an admin, or — with the single existence lookup succeeding —
some patient row has the requested id and was created by the user or
carries a visit whose doctor is the user; whenever the lookup errors, the
non-admin outcome is a denial, never an allow. -/
theorem c9_patient_access_grant_iff :
    ∀ (u : ReqUser) (pid : String) (db : ClinicalDb) (lookupFails : Bool),
      authorizePatientAccess (some u) (some pid) db lookupFails = .ok () ↔
        (u.role = UserRole.admin ∨
          (lookupFails = false ∧
            ∃ p ∈ db.patients, p.id = pid ∧
              (p.createdBy = u.id ∨
                ∃ v ∈ db.visits, v.patientId = p.id ∧
                  v.doctorId = u.id))) := by
  intro u pid db lookupFails
  by_cases hadmin : u.role = UserRole.admin
  · simp [authorizePatientAccess, hadmin]
  · cases lookupFails with
    | true => simp [authorizePatientAccess, hadmin]
    | false =>
        by_cases hq : patientAccessQuery db pid u.id = true
        · have hex := hq
          simp only [patientAccessQuery, List.any_eq_true, Bool.and_eq_true,
            Bool.or_eq_true, beq_iff_eq] at hex
          constructor
          · intro _
            refine Or.inr ⟨rfl, ?_⟩
            obtain ⟨p, hp, hpid, hrest⟩ := hex
            refine ⟨p, hp, hpid, ?_⟩
            rcases hrest with hcb | ⟨v, hv, hvp, hvd⟩
            · exact Or.inl hcb
            · exact Or.inr ⟨v, hv, hvp, hvd⟩
          · intro _
            simp [authorizePatientAccess, hadmin, hq]
        · constructor
          · intro h
            exfalso
            simp [authorizePatientAccess, hadmin, hq] at h
          · intro h
            exfalso
            rcases h with hadm | ⟨_, p, hp, hpid, hrest⟩
            · exact hadmin hadm
            · apply hq
              simp only [patientAccessQuery, List.any_eq_true,
                Bool.and_eq_true, Bool.or_eq_true, beq_iff_eq]
              refine ⟨p, hp, hpid, ?_⟩
              rcases hrest with hcb | ⟨v, hv, hvp, hvd⟩
              · exact Or.inl hcb
              · exact Or.inr ⟨v, hv, hvp, hvd⟩

/-- C10: ORM registration stores the lower-cased email, and ORM login
authenticates a registered, active user with a correct password exactly for
the input emails whose lower-casing equals the stored address (emails being
unique in the users table). -/
theorem c10_auth_email_matching_case_insensitive :
    (∀ (users : List UserRow) (facilities : List (String × Bool))
        (newId email password role : String) (facilityId : Option String)
        (passwordOk : Bool) (users' : List UserRow) (u' : UserRow),
      AuthService.register users facilities newId email password role
          facilityId passwordOk = .ok (users', u') →
      u'.email = email.toLower ∧ users' = users ++ [u']) ∧
    (∀ (users : List UserRow) (u : UserRow) (e pw : String),
      u ∈ users → u.isActive = true →
      PasswordService.verifyPassword pw u.password = true →
      distinctKeys UserRow.email users = true →
      (AuthService.login users e pw = .ok u ↔ e.toLower = u.email)) := by
  constructor
  · intro users facilities newId email password role facilityId passwordOk
      users' u' h
    unfold AuthService.register at h
    cases hfind : users.find? (fun u => u.email == email.toLower) with
    | some w => rw [hfind] at h; cases h
    | none =>
        rw [hfind] at h
        simp only at h
        by_cases hpw : passwordOk = false
        · rw [if_pos hpw] at h; cases h
        · rw [if_neg hpw] at h
          cases facilityId with
          | none =>
              simp only at h
              rw [if_neg (fun hcontra => Bool.noConfusion hcontra)] at h
              simp only [Except.ok.injEq, Prod.mk.injEq] at h
              obtain ⟨h1, h2⟩ := h
              subst h2
              exact ⟨rfl, h1.symm⟩
          | some fid =>
              simp only at h
              by_cases hfc :
                  facilities.any (fun f => f.1 == fid && f.2) = false
              · rw [if_pos hfc] at h; cases h
              · rw [if_neg hfc] at h
                simp only [Except.ok.injEq, Prod.mk.injEq] at h
                obtain ⟨h1, h2⟩ := h
                subst h2
                exact ⟨rfl, h1.symm⟩
  · intro users u e pw hu hact hpw huniq
    unfold AuthService.login
    constructor
    · intro hok
      cases hfind : users.find?
          (fun v => v.email == e.toLower && v.isActive) with
      | none => rw [hfind] at hok; cases hok
      | some w =>
          rw [hfind] at hok
          simp only at hok
          by_cases hv : PasswordService.verifyPassword pw w.password = true
          · rw [if_pos hv] at hok
            simp only [Except.ok.injEq] at hok
            subst hok
            have hprop := List.find?_some hfind
            simp only [Bool.and_eq_true, beq_iff_eq] at hprop
            exact hprop.1.symm
          · rw [if_neg hv] at hok; cases hok
    · intro hlow
      have hfu : users.find? (fun v => v.email == e.toLower && v.isActive) =
          some u := by
        apply find?_eq_some_of_unique _ _ u hu
          (by simp [beq_iff_eq, hlow.symm, hact])
        intro v hv hpv
        simp only [Bool.and_eq_true, beq_iff_eq] at hpv
        exact eq_of_distinctKeys UserRow.email _ huniq hv hu
          (hpv.1.trans hlow)
      rw [hfu]
      simp only
      rw [if_pos hpw]

/-- The user stored by registering `"Doc@X.Com"`. -/
def registeredUser : UserRow :=
  { id := "u9", email := "Doc@X.Com".toLower,
    password := PasswordService.hashPassword "Password123!",
    role := "doctor", facilityId := none, isActive := true }

/-- Witness for C10: a concrete registration stores the lower-cased email,
and a concrete login with a differently-cased email authenticates the
sample user. -/
theorem c10_witness :
    (registeredUser.email = "Doc@X.Com".toLower ∧
      [registeredUser] = [] ++ [registeredUser]) ∧
    (AuthService.login [sampleUser] "DOCTOR@AfyaTrack.Com" "Password123!" =
        .ok sampleUser ↔
      "DOCTOR@AfyaTrack.Com".toLower = sampleUser.email) :=
  ⟨c10_auth_email_matching_case_insensitive.1 [] [] "u9" "Doc@X.Com"
     "Password123!" "doctor" none true [registeredUser] registeredUser
     (by rfl),
   c10_auth_email_matching_case_insensitive.2 [sampleUser] sampleUser
     "DOCTOR@AfyaTrack.Com" "Password123!" (by decide) rfl (by decide)
     (by decide)⟩

end AfyaTrack
